import Mathlib

/-!
Shallow embedding of the musicmoodchecker repository core: the
playback clock smoothing, beat estimation, estimated-feature synthesis,
queue handling, poll-state updates, platform switching, visual colour
mapping and microphone band analysis.  Machine floats are modelled by
rationals (all arithmetic that the claims touch is exact on the values
involved); JavaScript 32-bit integer wrapping is modelled explicitly;
non-finite float results (division by zero) are modelled by `Option`.
-/

namespace MusicMood

/-- JavaScript-style linear interpolation, `p5.lerp a b t = a + (b - a) * t`. -/
def lerpQ (a b t : ℚ) : ℚ := a + (b - a) * t

/-- Truncation toward zero, as JavaScript coerces for the `%` operator. -/
def truncQ (x : ℚ) : ℤ := if 0 ≤ x then ⌊x⌋ else ⌈x⌉

/-- JavaScript remainder `a % b` (truncated division remainder).  Only used
at nonzero `b` in the development; `b = 0` (a NaN in JS) is out of scope. -/
def jsMod (a b : ℚ) : ℚ := a - b * (truncQ (a / b) : ℚ)

/-- Wrap an integer to the signed 32-bit range, as the JS `| 0` and `<< `
operators do. -/
def toInt32 (n : ℤ) : ℤ := ((n + 2 ^ 31) % 2 ^ 32) - 2 ^ 31

/-- `p5.map(v, a, b, c, d)`: affine re-ranging of `v` from `[a,b]` to `[c,d]`. -/
def pMap (v a b c d : ℚ) : ℚ := c + (d - c) * ((v - a) / (b - a))

/-- The active playback platform (`activeSource` in `SpotifyState`). -/
inductive Platform where
  | SPOTIFY
  | YOUTUBE
deriving DecidableEq, Repr

/-- A Spotify track as the app consumes it (`types.ts`): id, title, the
artist names, and the duration in milliseconds. -/
structure SpotifyTrack where
  id : String
  name : String
  artists : List String
  duration_ms : ℚ
deriving DecidableEq, Repr

/-- A YouTube queue video: id and duration in milliseconds. -/
structure YoutubeTrack where
  id : String
  duration_ms : ℚ
deriving DecidableEq, Repr

/-- Audio features of a track (`types.ts`), with the `isEstimated` flag. -/
structure AudioFeatures where
  energy : ℚ
  valence : ℚ
  danceability : ℚ
  acousticness : ℚ
  instrumentalness : ℚ
  tempo : ℚ
  loudness : ℚ
  isEstimated : Bool
deriving DecidableEq, Repr

/-- A pending queue entry (`QueueItem`), tagged by platform. -/
structure QueueItem where
  platform : Platform
  spotifyTrack : Option SpotifyTrack
  youtubeTrack : Option YoutubeTrack
deriving DecidableEq, Repr

/-- The shared app state (`SpotifyState` in the second `App.tsx` version),
restricted to the fields the verified operations read or write. -/
structure AppState where
  activeSource : Platform
  currentTrack : Option SpotifyTrack
  youtubeTrack : Option YoutubeTrack
  features : Option AudioFeatures
  progress_ms : ℚ
  isPlaying : Bool
  queue : List QueueItem
deriving DecidableEq, Repr

/-! ## Playback clock (part_003 and part_004 Scene sketches) -/

/-- One `p.draw` frame of the part_003 smoothing logic, acting on the pair
`(smoothProgressMs, lastPropProgressMs)`:

  if (progressMs !== lastPropProgressMs) { smoothProgressMs = progressMs; lastPropProgressMs = progressMs; }
  else if (isPlaying) { smoothProgressMs += p.deltaTime; }
  if (smoothProgressMs > durationMs) smoothProgressMs = durationMs; -/
def tick003 (smooth lastProp progressMs : ℚ) (isPlaying : Bool) (dt durationMs : ℚ) :
    ℚ × ℚ :=
  let s :=
    if progressMs ≠ lastProp then progressMs
    else if isPlaying then smooth + dt
    else smooth
  let lp := if progressMs ≠ lastProp then progressMs else lastProp
  (if s > durationMs then durationMs else s, lp)

/-- The trace of successive `smoothProgressMs` values produced by part_003
frames during which the authoritative prop does not change (so
`progressMs = lastPropProgressMs` throughout) and `isPlaying` is true,
one entry per frame delta in `dts`. -/
def ticks003 (durationMs progressMs : ℚ) : ℚ → List ℚ → List ℚ
  | _, [] => []
  | smooth, dt :: rest =>
    let s := (tick003 smooth progressMs progressMs true dt durationMs).1
    s :: ticks003 durationMs progressMs s rest

/-- One `p.draw` frame of the part_004 progress logic (`dt` in seconds):

  if (state.isPlaying) {
    const diff = state.progressMs - smoothProgress;
    if (Math.abs(diff) > 2000) { smoothProgress = expectedProgress; }
    else { smoothProgress += (dt * 1000); smoothProgress = p.lerp(smoothProgress, expectedProgress, 0.1); }
  } else { smoothProgress += dt * 1000 * 0.1; } -/
def tick004 (smooth progressMs dt : ℚ) (isPlaying : Bool) : ℚ :=
  if isPlaying then
    if |progressMs - smooth| > 2000 then progressMs
    else lerpQ (smooth + dt * 1000) progressMs (1 / 10)
  else smooth + dt * 1000 * (1 / 10)

/-- The `MediaPlayer.tsx` Spotify progress effect body for `localProgress`:

  if (activeSource === 'SPOTIFY') {
    if (Math.abs(localProgress - progress_ms) > 2000) setLocalProgress(progress_ms);
  } -/
def mpSpotifySync (activeSource : Platform) (localProgress progress_ms : ℚ) : ℚ :=
  if activeSource = Platform.SPOTIFY ∧ |localProgress - progress_ms| > 2000 then
    progress_ms
  else localProgress

/-! ## Beat estimation -/

/-- The part_003 deterministic kick while playing:

  const secondsPerBeat = 60 / (tempo || 120);
  const totalBeats = (smoothProgressMs / 1000) / secondsPerBeat;
  const currentBeatPhase = totalBeats % 1;
  kick = Math.pow(Math.max(0, 1 - currentBeatPhase), 4); -/
def kick003 (tempo progressMs : ℚ) : ℚ :=
  let secondsPerBeat := 60 / (if tempo = 0 then 120 else tempo)
  let totalBeats := (progressMs / 1000) / secondsPerBeat
  let currentBeatPhase := jsMod totalBeats 1
  (max 0 (1 - currentBeatPhase)) ^ 4

/-- The `Scene.tsx` (p5 version) simulated deterministic-mode pulse, which
keys the beat phase off the wall clock `p.millis()` and scales by energy:

  const bps = bpm / 60; const msPerBeat = 1000 / bps;
  const beatPhase = (now % msPerBeat) / msPerBeat;
  const kick = Math.pow(1 - beatPhase, 4) * energy; -/
def simulatedKick (nowMs bpm energy : ℚ) : ℚ :=
  let bps := bpm / 60
  let msPerBeat := 1000 / bps
  let beatPhase := jsMod nowMs msPerBeat / msPerBeat
  (1 - beatPhase) ^ 4 * energy

/-- Modelled from the spec (section 4.2), for comparison with the code:
`beatPhase = (progressMs / msPerBeat) mod 1` with `msPerBeat = 60000/tempo`,
and `impulse = max(0, 1 - beatPhase)^n` with sharpness `n = 4`. -/
def specBeatImpulse (tempo progressMs : ℚ) : ℚ :=
  let msPerBeat := 60000 / tempo
  let beatPhase := jsMod (progressMs / msPerBeat) 1
  (max 0 (1 - beatPhase)) ^ 4

/-! ## Progress percentage (MediaPlayer.tsx and the part_001 variant) -/

/-- JavaScript float division where a zero divisor yields a non-finite
value (NaN or an infinity), modelled as `none`. -/
def jsDivOpt (a b : ℚ) : Option ℚ := if b = 0 then none else some (a / b)

/-- The part_001 media player percentage, computed with no duration guard:
`const progressPercent = (localProgress / currentTrack.duration_ms) * 100;`
The result is `none` exactly when the division is non-finite. -/
def progressPercent001 (localProgress duration_ms : ℚ) : Option ℚ :=
  (jsDivOpt localProgress duration_ms).map (fun q => q * 100)

/-- The `MediaPlayer.tsx` duration selection:
`activeSource === 'SPOTIFY' ? currentTrack?.duration_ms : (youtubeTrack?.duration_ms || 180000)`,
with `none` standing for JavaScript `undefined`. -/
def mpDuration (activeSource : Platform) (currentTrack : Option SpotifyTrack)
    (youtubeTrack : Option YoutubeTrack) : Option ℚ :=
  match activeSource with
  | Platform.SPOTIFY => currentTrack.map (fun t => t.duration_ms)
  | Platform.YOUTUBE =>
    some (match youtubeTrack with
      | some yt => if yt.duration_ms = 0 then 180000 else yt.duration_ms
      | none => 180000)

/-- The `MediaPlayer.tsx` percentage with its falsy-duration guard:
`const progressPercent = duration ? (localProgress / duration) * 100 : 0;`
(`undefined` and `0` are both falsy, giving `0`). -/
def progressPercentMP (duration : Option ℚ) (localProgress : ℚ) : ℚ :=
  match duration with
  | none => 0
  | some d => if d = 0 then 0 else localProgress / d * 100

/-! ## Estimated audio features (`generateEstimatedFeatures` in App.tsx) -/

/-- One step of the JS string hash:
`hash = ((hash << 5) - hash) + str.charCodeAt(i); hash |= 0;`
(`hash << 5` wraps to 32 bits before the exact float subtraction/addition,
and `|= 0` wraps the result). -/
def hashStep (h : ℤ) (c : ℕ) : ℤ := toInt32 (toInt32 (h * 2 ^ 5) - h + c)

/-- The full string hash loop of `generateEstimatedFeatures`, folding
`hashStep` over the character codes, starting from 0. -/
def jsHash (s : String) : ℤ := s.toList.foldl (fun h c => hashStep h c.toNat) 0

/-- The first artist name or the empty string:
`track.artists[0]?.name || ''`. -/
def headArtistName : List String → String
  | [] => ""
  | a :: _ => a

/-- `generateEstimatedFeatures` (App.tsx).  `jsSin` abstracts the JS
`Math.sin` builtin (a fixed deterministic function on doubles); the rest is
translated directly:

  const str = track.name + (track.artists[0]?.name || '');
  ... hash loop ...; const seed = Math.abs(hash);
  const rand = (offset) => { const x = Math.sin(seed + offset) * 10000; return x - Math.floor(x); };
  return { energy: 0.3 + rand(1)*0.7, valence: rand(2), danceability: rand(3),
           acousticness: rand(4)*0.5, instrumentalness: rand(5)*0.2,
           tempo: 80 + rand(6)*100, loudness: -5 - rand(7)*10, isEstimated: true }; -/
def generateEstimatedFeatures (jsSin : ℚ → ℚ) (track : SpotifyTrack) : AudioFeatures :=
  let str := track.name ++ headArtistName track.artists
  let hash := jsHash str
  let seed := |hash|
  let rand := fun (offset : ℚ) =>
    let x := jsSin ((seed : ℚ) + offset) * 10000
    x - (⌊x⌋ : ℚ)
  { energy := 3 / 10 + rand 1 * (7 / 10)
    valence := rand 2
    danceability := rand 3
    acousticness := rand 4 * (1 / 2)
    instrumentalness := rand 5 * (1 / 5)
    tempo := 80 + rand 6 * 100
    loudness := -5 - rand 7 * 10
    isEstimated := true }

/-! ## Queue consumption (`handleYoutubeEnd` in App.tsx, and the
MediaPlayer YouTube progress interval) -/

/-- The `find` predicate of `handleYoutubeEnd`:
`q.platform === 'YOUTUBE' && q.youtubeTrack?.id !== prev.youtubeTrack?.id`. -/
def ytNextPred (active : Option YoutubeTrack) (q : QueueItem) : Bool :=
  q.platform = Platform.YOUTUBE ∧
    q.youtubeTrack.map (fun yt => yt.id) ≠ active.map (fun yt => yt.id)

/-- Removal of the one object `Array.prototype.find` returned, as
`queue.filter(q => q !== nextYt)` does for reference-distinct items:
drop the first element satisfying the predicate. -/
def removeFirst (p : QueueItem → Bool) : List QueueItem → List QueueItem
  | [] => []
  | q :: rest => if p q then rest else q :: removeFirst p rest

/-- `handleYoutubeEnd` (App.tsx): dequeue the first pending YouTube item
whose video id differs from the active one, else go idle:

  const nextYt = prev.queue.find(q => q.platform === 'YOUTUBE' && q.youtubeTrack?.id !== prev.youtubeTrack?.id);
  if (nextYt && nextYt.youtubeTrack) {
    const newQueue = prev.queue.filter(q => q !== nextYt);
    return { ...prev, youtubeTrack: nextYt.youtubeTrack, queue: newQueue, isPlaying: true };
  } else { return { ...prev, isPlaying: false }; } -/
def handleYoutubeEnd (s : AppState) : AppState :=
  match s.queue.find? (ytNextPred s.youtubeTrack) with
  | some nextYt =>
    match nextYt.youtubeTrack with
    | some yt =>
      { s with
        youtubeTrack := some yt
        queue := removeFirst (ytNextPred s.youtubeTrack) s.queue
        isPlaying := true }
    | none => { s with isPlaying := false }
  | none => { s with isPlaying := false }

/-- One second of the MediaPlayer YouTube progress interval, returning the
new `localProgress` and whether the track-end callback fired:

  const duration = youtubeTrack.duration_ms || 180000;
  const newProgress = prev + 1000;
  if (duration > 0 && newProgress >= duration) { onYoutubeEnd(); ...; return 0; }
  return newProgress; -/
def mpYtStep (prev dur0 : ℚ) : ℚ × Bool :=
  let duration := if dur0 = 0 then 180000 else dur0
  let newProgress := prev + 1000
  if 0 < duration ∧ duration ≤ newProgress then (0, true) else (newProgress, false)

/-! ## Poll boundary (`fetchCurrentTrack` in spotifyService.ts and
`pollSpotify` in App.tsx) -/

/-- What happened upstream during one `fetchCurrentTrack` call. -/
inductive FetchOutcome where
  | httpError
  | exception
  | noItem
  | ok (track : SpotifyTrack) (progress : ℚ) (playing : Bool)
deriving DecidableEq, Repr

/-- The value a `fetchCurrentTrack` poll resolves with. -/
structure PollResult where
  track : Option SpotifyTrack
  progress_ms : ℚ
  is_playing : Bool
deriving DecidableEq, Repr

/-- `fetchCurrentTrack` (spotifyService.ts): a 204/error status, a missing
`data.item`, and a thrown network error are all caught and mapped to
`{ track: null, progress_ms: 0, is_playing: false }`. -/
def fetchCurrentTrack : FetchOutcome → PollResult
  | FetchOutcome.ok t p pl => { track := some t, progress_ms := p, is_playing := pl }
  | _ => { track := none, progress_ms := 0, is_playing := false }

/-- The key `pollSpotify` tracks per song:
`track.id || track.name-track.artists[0]?.name`. -/
def trackKey (t : SpotifyTrack) : String :=
  if t.id = "" then t.name ++ "-" ++ headArtistName t.artists else t.id

/-- `pollSpotify` (App.tsx, second version): the state update applied after
a poll resolves, together with the new `currentTrackKeyRef` value.
`featuresFetched` is the result of the `fetchAudioFeatures` network call
(only consulted when the track has a truthy id). -/
def pollSpotifyUpdate (jsSin : ℚ → ℚ) (prev : AppState) (curKey : Option String)
    (r : PollResult) (featuresFetched : Option AudioFeatures) :
    AppState × Option String :=
  match r.track with
  | some track =>
    let key := trackKey track
    if some key ≠ curKey then
      let fetched := if track.id = "" then none else featuresFetched
      let features := fetched.getD (generateEstimatedFeatures jsSin track)
      ({ prev with
          currentTrack := some track
          features := some features
          progress_ms := r.progress_ms
          isPlaying := r.is_playing }, some key)
    else
      ({ prev with progress_ms := r.progress_ms, isPlaying := r.is_playing }, curKey)
  | none =>
    if curKey ≠ none then
      ({ prev with currentTrack := none, features := none, isPlaying := false }, none)
    else (prev, curKey)

/-! ## Platform switching (`handlePlatformChange` in App.tsx) -/

/-- The upstream commands the switch handler can issue. -/
inductive SpotifyCmd where
  | pauseSpotify
deriving DecidableEq, Repr

/-- JavaScript truthiness of the token string. -/
def tokenTruthy : Option String → Bool
  | none => false
  | some t => t ≠ ""

/-- `handlePlatformChange` (App.tsx): issues a Spotify pause only when
switching from SPOTIFY to YOUTUBE with a token, then sets the new source
and clears `isPlaying`:

  if (platform === 'YOUTUBE' && spotifyState.activeSource === 'SPOTIFY') {
    if (token) pauseTrack(token);
  }
  setSpotifyState(prev => ({ ...prev, activeSource: platform, isPlaying: false })); -/
def handlePlatformChange (platform : Platform) (s : AppState) (token : Option String) :
    AppState × List SpotifyCmd :=
  let cmds :=
    if platform = Platform.YOUTUBE ∧ s.activeSource = Platform.SPOTIFY ∧
        tokenTruthy token then
      [SpotifyCmd.pauseSpotify]
    else []
  ({ s with activeSource := platform, isPlaying := false }, cmds)

/-! ## Colour mapping (Scene.tsx audio branch and part_004 getFluidColor) -/

/-- The per-sketch accumulators of the `Scene.tsx` p5 draw loop that feed
the colour computation. -/
structure SceneAcc where
  hueOffset : ℚ
  smoothBass : ℚ
  smoothMid : ℚ
  smoothTreble : ℚ
deriving DecidableEq, Repr

/-- One frame of the `Scene.tsx` accumulator updates preceding the colour
block:

  smoothBass = p.lerp(smoothBass, bass, 0.15);
  smoothMid = p.lerp(smoothMid, mid, 0.1);
  smoothTreble = p.lerp(smoothTreble, treble, 0.1);
  hueOffset += 0.2 + (smoothBass * 3.0); -/
def sceneStep (acc : SceneAcc) (bass mid treble : ℚ) : SceneAcc :=
  let sb := lerpQ acc.smoothBass bass (15 / 100)
  let sm := lerpQ acc.smoothMid mid (1 / 10)
  let st := lerpQ acc.smoothTreble treble (1 / 10)
  { hueOffset := acc.hueOffset + 2 / 10 + sb * 3
    smoothBass := sb
    smoothMid := sm
    smoothTreble := st }

/-- The HSB colour the `Scene.tsx` audio branch builds from the (already
updated) accumulators:

  const h = hueOffset % 360;
  const s = 50 + (smoothMid * 50);
  const b = 80 + (smoothBass * 20);
  cPrimary = p.color(h, s, Math.min(b, 100)); -/
def sceneColorHSB (acc : SceneAcc) : ℚ × ℚ × ℚ :=
  (jsMod acc.hueOffset 360, 50 + acc.smoothMid * 50, min (80 + acc.smoothBass * 20) 100)

/-- `getFluidColor` (part_004): a colour from energy, valence and the beat
impulse alone:

  let targetHue = valence < 0.5 ? p.map(valence, 0, 0.5, 220, 270) : p.map(valence, 0.5, 1, 270, 380);
  if (targetHue > 360) targetHue -= 360;
  const sat = p.map(energy, 0, 1, 50, 90);
  const bri = p.map(energy, 0, 1, 60, 100) + (beat * 15);
  const c = p.color(targetHue, sat, Math.min(100, bri)); -/
def getFluidColor (energy valence beat : ℚ) : ℚ × ℚ × ℚ :=
  let targetHue0 :=
    if valence < 1 / 2 then pMap valence 0 (1 / 2) 220 270
    else pMap valence (1 / 2) 1 270 380
  let targetHue := if targetHue0 > 360 then targetHue0 - 360 else targetHue0
  let sat := pMap energy 0 1 50 90
  let bri := pMap energy 0 1 60 100 + beat * 15
  (targetHue, sat, min 100 bri)

/-! ## Microphone band analysis (`AudioAnalyzer.getAnalysis`) -/

/-- The band-summing loop of `getAnalysis`, indexed from `i`:

  for (let i = 0; i < length; i++) {
    const val = data[i];
    if (i < bassCount) bassSum += val;
    else if (i < bassCount + midCount) midSum += val;
    else trebleSum += val;
  } -/
def loopSums (bassCount midCount : ℕ) : ℕ → List ℕ → ℕ × ℕ × ℕ
  | _, [] => (0, 0, 0)
  | i, v :: rest =>
    let r := loopSums bassCount midCount (i + 1) rest
    if i < bassCount then (r.1 + v, r.2.1, r.2.2)
    else if i < bassCount + midCount then (r.1, r.2.1 + v, r.2.2)
    else (r.1, r.2.1, r.2.2 + v)

/-- The value `getAnalysis` returns. -/
structure Analysis where
  bass : ℚ
  mid : ℚ
  treble : ℚ
  raw : List ℕ
deriving DecidableEq, Repr

/-- `AudioAnalyzer.getAnalysis` (audioService.ts).  `dataArray = none`
models a stopped or never-started analyser (the `!this.analyser ||
!this.dataArray` guard); otherwise the byte buffer is summed in three
bands and each average is normalised by 255.  (Rational division is total;
the theorems only invoke the band averages at nonzero band sizes, matching
the 1024-bin buffer the analyser allocates.) -/
def getAnalysis (dataArray : Option (List ℕ)) : Analysis :=
  match dataArray with
  | none => { bass := 0, mid := 0, treble := 0, raw := [] }
  | some data =>
    let bassCount := data.length * 5 / 100
    let midCount := data.length * 25 / 100
    let s := loopSums bassCount midCount 0 data
    { bass := (s.1 : ℚ) / bassCount / 255
      mid := (s.2.1 : ℚ) / midCount / 255
      treble := (s.2.2 : ℚ) / ((data.length - bassCount - midCount : ℕ) : ℚ) / 255
      raw := data }

/-! ## Concrete fixture states used to evaluate the operations -/

/-- The pending next video used by the dequeue witness. -/
def nextVideo : YoutubeTrack := { id := "next", duration_ms := 200000 }

/-- A queue entry holding `nextVideo`. -/
def nextItem : QueueItem :=
  { platform := Platform.YOUTUBE, spotifyTrack := none, youtubeTrack := some nextVideo }

/-- A state playing a different video with `nextItem` pending. -/
def endStateWithNext : AppState :=
  { activeSource := Platform.YOUTUBE
    currentTrack := none
    youtubeTrack := some { id := "old", duration_ms := 100000 }
    features := none
    progress_ms := 100000
    isPlaying := true
    queue := [nextItem] }

/-- A state whose only pending queue entry replays the currently active
video id. -/
def sameIdQueueState : AppState :=
  { activeSource := Platform.YOUTUBE
    currentTrack := none
    youtubeTrack := some { id := "vid", duration_ms := 180000 }
    features := none
    progress_ms := 170000
    isPlaying := true
    queue := [{ platform := Platform.YOUTUBE, spotifyTrack := none,
                youtubeTrack := some { id := "vid", duration_ms := 180000 } }] }

/-- A last-known-good state with an active Spotify track and features. -/
def pollPrevState : AppState :=
  { activeSource := Platform.SPOTIFY
    currentTrack := some { id := "t1", name := "Song", artists := ["Artist"],
                           duration_ms := 240000 }
    youtubeTrack := none
    features := some { energy := 1, valence := 0, danceability := 1,
                       acousticness := 0, instrumentalness := 0,
                       tempo := 120, loudness := -5, isEstimated := false }
    progress_ms := 10000
    isPlaying := true
    queue := [] }

/-- A state playing the embedded source at 5000 ms. -/
def ytActiveState : AppState :=
  { activeSource := Platform.YOUTUBE
    currentTrack := none
    youtubeTrack := some { id := "vid", duration_ms := 180000 }
    features := none
    progress_ms := 5000
    isPlaying := true
    queue := [] }

end MusicMood

namespace MusicMood

/-! ## Helper lemmas -/

theorem jsMod_one_eq_fract (x : ℚ) (hx : 0 ≤ x) : jsMod x 1 = Int.fract x := by
  unfold jsMod truncQ
  rw [div_one, if_pos hx, one_mul, Int.self_sub_floor]

theorem tick003_val (smooth prog d dur : ℚ) :
    (tick003 smooth prog prog true d dur).1 =
      if smooth + d > dur then dur else smooth + d := by
  simp [tick003]

theorem tick003_step_bounds (smooth prog d dur : ℚ) (hd : 0 ≤ d) (hs : smooth ≤ dur) :
    smooth ≤ (tick003 smooth prog prog true d dur).1 ∧
    (tick003 smooth prog prog true d dur).1 ≤ dur := by
  rw [tick003_val]
  split_ifs with h <;> constructor <;> linarith

/-! ## C1: clock monotonicity while playing with no authoritative arrival -/

/-- C1 (amended): for the part_003 Scene clock, over any sequence of frames
while `isPlaying` is true and the authoritative prop stays equal to the
recorded one, with nonnegative frame deltas and `smoothProgressMs ≤
durationMs` initially, the smoothed progress trace is non-decreasing from
frame to frame and never exceeds `durationMs`. -/
theorem clock003_monotone_le_duration (dur prog smooth : ℚ) (dts : List ℚ)
    (hd : ∀ d ∈ dts, 0 ≤ d) (hs : smooth ≤ dur) :
    List.Chain (· ≤ ·) smooth (ticks003 dur prog smooth dts) ∧
    ∀ x ∈ ticks003 dur prog smooth dts, x ≤ dur := by
  induction dts generalizing smooth with
  | nil => exact ⟨List.Chain.nil, by simp [ticks003]⟩
  | cons d rest ih =>
    have hd0 : 0 ≤ d := hd d (by simp)
    obtain ⟨hle, hub⟩ := tick003_step_bounds smooth prog d dur hd0 hs
    obtain ⟨ihc, ihb⟩ :=
      ih (tick003 smooth prog prog true d dur).1 (fun x hx => hd x (by simp [hx])) hub
    refine ⟨?_, ?_⟩
    · exact List.Chain.cons hle ihc
    · intro x hx
      simp only [ticks003, List.mem_cons] at hx
      rcases hx with rfl | hx
      · exact hub
      · exact ihb x hx

/-- C1 witness: two 60 fps frames from 0 with a 240000 ms track. -/
theorem clock003_monotone_le_duration_witness :
    List.Chain (· ≤ ·) 0 (ticks003 240000 0 0 [50 / 3, 50 / 3]) ∧
    ∀ x ∈ ticks003 240000 0 0 [50 / 3, 50 / 3], x ≤ 240000 :=
  clock003_monotone_le_duration 240000 0 0 [50 / 3, 50 / 3] (by norm_num) (by norm_num)

/-- C1 counterexample: the part_004 Scene clock blends toward the last
(stale) authoritative value every playing frame and never clamps to the
duration, so with `smoothProgress = 1000` and a stale authoritative value
0 a 60 fps tick decreases the smoothed progress to 915, and with the
authoritative value at the duration 10000 a tick raises it to 10015,
beyond the duration. -/
theorem clock004_tick_decrease_counterexample :
    tick004 1000 0 (1 / 60) true = 915 ∧ (915 : ℚ) < 1000 ∧
    tick004 10000 10000 (1 / 60) true = 10015 ∧ (10000 : ℚ) < 10015 := by
  have h1 : |(0 : ℚ) - 1000| = 1000 := by
    rw [abs_of_nonpos (by norm_num)]; norm_num
  have h2 : |(10000 : ℚ) - 10000| = 0 := by norm_num
  refine ⟨?_, by norm_num, ?_, by norm_num⟩ <;>
    · simp only [tick004, lerpQ, h1, h2, if_true]
      norm_num

/-! ## C2: seek snap on a large authoritative jump -/

/-- C2: when the authoritative progress is more than 2000 ms away from the
smoothed value, both the part_004 Scene clock (while playing) and the
MediaPlayer Spotify sync set the smoothed/local progress to the new
authoritative value in one step, with no gradual blend. -/
theorem seek_snap_immediate (smooth auth localP prog dt : ℚ)
    (h004 : |auth - smooth| > 2000) (hmp : |localP - prog| > 2000) :
    tick004 smooth auth dt true = auth ∧
    mpSpotifySync Platform.SPOTIFY localP prog = prog := by
  constructor
  · simp [tick004, h004]
  · simp [mpSpotifySync, hmp]

/-- C2 witness: the scenario jump from 10000 ms to 95000 ms. -/
theorem seek_snap_immediate_witness :
    |(95000 : ℚ) - 10000| > 2000 ∧
    tick004 10000 95000 (1 / 60) true = 95000 ∧
    mpSpotifySync Platform.SPOTIFY 10000 95000 = 95000 := by
  have ha : |(95000 : ℚ) - 10000| > 2000 := by
    rw [abs_of_nonneg (by norm_num)]; norm_num
  have hb : |(10000 : ℚ) - 95000| > 2000 := by
    rw [abs_of_nonpos (by norm_num)]; norm_num
  exact ⟨ha, (seek_snap_immediate 10000 95000 10000 95000 (1 / 60) ha hb).1,
    (seek_snap_immediate 10000 95000 10000 95000 (1 / 60) ha hb).2⟩

/-! ## C3: deterministic beat impulse -/

/-- C3 (amended): the part_003 deterministic kick equals the specified
formula `max(0, 1 - ((progressMs / (60000/tempo)) mod 1))^4` for every
tempo in `(0, 300]` and every nonnegative progress value, and lies in
`[0, 1]`; at 120 BPM and 250 ms it equals `0.0625`. -/
theorem kick003_formula_bounds (tempo progressMs : ℚ) (h0 : 0 < tempo)
    (h300 : tempo ≤ 300) (hp : 0 ≤ progressMs) :
    kick003 tempo progressMs = specBeatImpulse tempo progressMs ∧
    0 ≤ kick003 tempo progressMs ∧ kick003 tempo progressMs ≤ 1 ∧
    kick003 120 250 = 1 / 16 := by
  have ht : tempo ≠ 0 := ne_of_gt h0
  have hden : (1000 : ℚ) * (60 / tempo) = 60000 / tempo := by
    rw [← mul_div_assoc]
    norm_num
  have harg : progressMs / 1000 / (60 / tempo) = progressMs / (60000 / tempo) := by
    rw [div_div, hden]
  have heq : kick003 tempo progressMs = specBeatImpulse tempo progressMs := by
    simp only [kick003, specBeatImpulse, if_neg ht]
    rw [harg]
  have hX : 0 ≤ progressMs / (60000 / tempo) :=
    div_nonneg hp (le_of_lt (by positivity))
  have hfract := jsMod_one_eq_fract (progressMs / (60000 / tempo)) hX
  have hf1 : 0 ≤ Int.fract (progressMs / (60000 / tempo)) := Int.fract_nonneg _
  have hf2 : Int.fract (progressMs / (60000 / tempo)) < 1 := Int.fract_lt_one _
  refine ⟨heq, ?_, ?_, ?_⟩
  · rw [heq]
    simp only [specBeatImpulse]
    exact pow_nonneg (le_max_left 0 _) 4
  · rw [heq]
    simp only [specBeatImpulse]
    rw [hfract]
    exact pow_le_one₀ (le_max_left 0 _) (max_le (by norm_num) (by linarith))
  · have h250 : jsMod ((250 : ℚ) / 1000 / (60 / 120)) 1 = 1 / 2 := by
      norm_num [jsMod, truncQ]
    simp only [kick003, ite_self]
    rw [h250, show (1 : ℚ) - 1 / 2 = 1 / 2 by norm_num,
      max_eq_right (by norm_num : (0 : ℚ) ≤ 1 / 2)]
    norm_num

/-- C3 witness: the theorem instantiated at 120 BPM and 250 ms. -/
theorem kick003_formula_bounds_witness :
    (0 : ℚ) < 120 ∧ (120 : ℚ) ≤ 300 ∧ (0 : ℚ) ≤ 250 ∧
    kick003 120 250 = specBeatImpulse 120 250 ∧
    0 ≤ kick003 120 250 ∧ kick003 120 250 ≤ 1 ∧ kick003 120 250 = 1 / 16 := by
  have h := kick003_formula_bounds 120 250 (by norm_num) (by norm_num) (by norm_num)
  exact ⟨by norm_num, by norm_num, by norm_num, h.1, h.2.1, h.2.2.1, h.2.2.2⟩

/-- C3 counterexample: the `Scene.tsx` simulated deterministic-mode pulse
derives the phase from the wall clock and scales by energy, so at 120 BPM,
wall time 250 ms and energy 0.5 it is `1/32`, while the claimed formula at
tempo 120, progress 250 ms gives `1/16`. -/
theorem simulatedKick_formula_counterexample :
    simulatedKick 250 120 (1 / 2) = 1 / 32 ∧
    specBeatImpulse 120 250 = 1 / 16 ∧
    simulatedKick 250 120 (1 / 2) ≠ specBeatImpulse 120 250 := by
  have h1 : simulatedKick 250 120 (1 / 2) = 1 / 32 := by
    norm_num [simulatedKick, jsMod, truncQ]
  have h2 : specBeatImpulse 120 250 = 1 / 16 := by
    have hm : jsMod ((250 : ℚ) / (60000 / 120)) 1 = 1 / 2 := by
      norm_num [jsMod, truncQ]
    simp only [specBeatImpulse]
    rw [hm, show (1 : ℚ) - 1 / 2 = 1 / 2 by norm_num,
      max_eq_right (by norm_num : (0 : ℚ) ≤ 1 / 2)]
    norm_num
  refine ⟨h1, h2, ?_⟩
  rw [h1, h2]
  norm_num

/-! ## C4: zero duration progress percentage -/

/-- C4 (amended): the `MediaPlayer.tsx` percentage guard reports 0 both
when the Spotify track has `duration_ms = 0` and when there is no track at
all, producing a finite value. -/
theorem progressPercent_zero_duration (localP : ℚ) (t : SpotifyTrack)
    (hd : t.duration_ms = 0) :
    progressPercentMP (mpDuration Platform.SPOTIFY (some t) none) localP = 0 ∧
    progressPercentMP none localP = 0 := by
  constructor
  · simp [progressPercentMP, mpDuration, hd]
  · rfl

/-- C4 witness: a zero-duration track at 500 ms local progress. -/
theorem progressPercent_zero_duration_witness :
    ({ id := "x", name := "N", artists := [], duration_ms := 0 } : SpotifyTrack).duration_ms
      = 0 ∧
    progressPercentMP
      (mpDuration Platform.SPOTIFY
        (some { id := "x", name := "N", artists := [], duration_ms := 0 }) none) 500 = 0 :=
  ⟨rfl, (progressPercent_zero_duration 500
    { id := "x", name := "N", artists := [], duration_ms := 0 } rfl).1⟩

/-- C4 counterexample: the part_001 media player computes
`(localProgress / duration_ms) * 100` with no guard, so at
`duration_ms = 0` the percentage is a non-finite value, not 0. -/
theorem progressPercent001_counterexample :
    progressPercent001 0 0 = none ∧ progressPercent001 0 0 ≠ some 0 := by
  constructor <;> simp [progressPercent001, jsDivOpt]

/-! ## C5: estimated features are a deterministic function of
title and first artist -/

/-- C5: `generateEstimatedFeatures` depends only on the track title and
the first artist name: any two tracks agreeing on these (whatever their
ids, durations or remaining artists) receive identical synthesized
features, and the result is flagged `isEstimated = true`.  `jsSin` is the
fixed `Math.sin` builtin, common to both runs. -/
theorem estimatedFeatures_deterministic (jsSin : ℚ → ℚ) (t1 t2 : SpotifyTrack)
    (hn : t1.name = t2.name)
    (ha : headArtistName t1.artists = headArtistName t2.artists) :
    generateEstimatedFeatures jsSin t1 = generateEstimatedFeatures jsSin t2 ∧
    (generateEstimatedFeatures jsSin t1).isEstimated = true := by
  unfold generateEstimatedFeatures
  rw [hn, ha]
  exact ⟨rfl, rfl⟩

/-- C5 witness: two tracks with different ids, durations and artist tails
but the same title and first artist get the same features. -/
theorem estimatedFeatures_deterministic_witness :
    ({ id := "a1", name := "Song", artists := ["Artist"],
       duration_ms := 200000 } : SpotifyTrack).name
      = ({ id := "b2", name := "Song", artists := ["Artist", "Other"],
           duration_ms := 180000 } : SpotifyTrack).name ∧
    generateEstimatedFeatures (fun q => q)
        { id := "a1", name := "Song", artists := ["Artist"], duration_ms := 200000 }
      = generateEstimatedFeatures (fun q => q)
        { id := "b2", name := "Song", artists := ["Artist", "Other"],
          duration_ms := 180000 } :=
  ⟨rfl, (estimatedFeatures_deterministic (fun q => q)
    { id := "a1", name := "Song", artists := ["Artist"], duration_ms := 200000 }
    { id := "b2", name := "Song", artists := ["Artist", "Other"], duration_ms := 180000 }
    rfl rfl).1⟩

/-! ## C6: FIFO consumption at embedded track end -/

theorem find?_of_prefix (p : QueueItem → Bool) (l1 : List QueueItem) (item : QueueItem)
    (l2 : List QueueItem) (h1 : ∀ q ∈ l1, p q = false) (h2 : p item = true) :
    (l1 ++ item :: l2).find? p = some item := by
  induction l1 with
  | nil => simp [List.find?_cons_of_pos, h2]
  | cons a rest ih =>
    have ha : p a = false := h1 a (by simp)
    rw [List.cons_append, List.find?_cons_of_neg _ (by simp [ha])]
    exact ih (fun q hq => h1 q (by simp [hq]))

theorem removeFirst_of_prefix (p : QueueItem → Bool) (l1 : List QueueItem)
    (item : QueueItem) (l2 : List QueueItem) (h1 : ∀ q ∈ l1, p q = false)
    (h2 : p item = true) :
    removeFirst p (l1 ++ item :: l2) = l1 ++ l2 := by
  induction l1 with
  | nil => simp [removeFirst, h2]
  | cons a rest ih =>
    have ha : p a = false := h1 a (by simp)
    simp [removeFirst, ha, ih (fun q hq => h1 q (by simp [hq]))]

/-- C6 (amended): when the active embedded video ends, the first pending
queue entry satisfying the code's predicate (platform YOUTUBE and video id
different from the active one) is removed from the queue and its video
becomes the active playing item; if no entry satisfies the predicate, the
controller goes idle (`isPlaying = false`) keeping all other state fields,
in particular the active embedded source; and the MediaPlayer interval
resets the local progress to 0 whenever it fires the track-end callback. -/
theorem youtubeEnd_dequeue_amended (s : AppState) (l1 l2 : List QueueItem)
    (item : QueueItem) (yt : YoutubeTrack)
    (hq : s.queue = l1 ++ item :: l2)
    (hl1 : ∀ q ∈ l1, ytNextPred s.youtubeTrack q = false)
    (hitem : ytNextPred s.youtubeTrack item = true)
    (hyt : item.youtubeTrack = some yt) :
    handleYoutubeEnd s =
      { s with youtubeTrack := some yt, queue := l1 ++ l2, isPlaying := true } ∧
    (∀ s2 : AppState, (∀ q ∈ s2.queue, ytNextPred s2.youtubeTrack q = false) →
      handleYoutubeEnd s2 = { s2 with isPlaying := false }) ∧
    (∀ prevMs dur : ℚ, (mpYtStep prevMs dur).2 = true → (mpYtStep prevMs dur).1 = 0) := by
  refine ⟨?_, ?_, ?_⟩
  · have hf : s.queue.find? (ytNextPred s.youtubeTrack) = some item := by
      rw [hq]
      exact find?_of_prefix _ l1 item l2 hl1 hitem
    have hrm : removeFirst (ytNextPred s.youtubeTrack) s.queue = l1 ++ l2 := by
      rw [hq]
      exact removeFirst_of_prefix _ l1 item l2 hl1 hitem
    simp [handleYoutubeEnd, hf, hyt, hrm]
  · intro s2 h
    have hf : s2.queue.find? (ytNextPred s2.youtubeTrack) = none :=
      List.find?_eq_none.mpr (fun q hq2 => by simp [h q hq2])
    simp [handleYoutubeEnd, hf]
  · intro prevMs dur h
    simp only [mpYtStep] at h ⊢
    split_ifs at h ⊢ <;> simp_all

/-- C6 witness: a pending different-id video is dequeued and becomes the
active playing item. -/
theorem youtubeEnd_dequeue_amended_witness :
    endStateWithNext.queue = [] ++ nextItem :: [] ∧
    ytNextPred endStateWithNext.youtubeTrack nextItem = true ∧
    nextItem.youtubeTrack = some nextVideo ∧
    handleYoutubeEnd endStateWithNext =
      { endStateWithNext with
        youtubeTrack := some nextVideo
        queue := ([] : List QueueItem) ++ []
        isPlaying := true } :=
  ⟨rfl, by decide, rfl,
   (youtubeEnd_dequeue_amended endStateWithNext [] [] nextItem nextVideo rfl
     (by simp) (by decide) rfl).1⟩

/-- C6 counterexample: the dequeue predicate also requires the pending
video id to differ from the one that just ended, so with exactly one
pending same-platform entry carrying the same id the controller skips it
and goes idle with the queue untouched — contradicting the claim that the
first same-platform pending item is dequeued and becomes active. -/
theorem youtubeEnd_same_id_counterexample :
    (sameIdQueueState.queue.find? (fun q => q.platform = Platform.YOUTUBE)).isSome
      = true ∧
    (handleYoutubeEnd sameIdQueueState).isPlaying = false ∧
    (handleYoutubeEnd sameIdQueueState).queue = sameIdQueueState.queue := by
  refine ⟨by decide, by decide, by decide⟩

/-! ## C7: poll failure handling -/

/-- C7 (amended): a failed poll (thrown error or non-OK status) is caught
at the boundary and resolves with the null result; applying the
`pollSpotify` update then leaves the state entirely unchanged when no
track was being tracked, but when one was it clears `currentTrack` and
`features` and forces `isPlaying := false`, keeping only `progress_ms`
at its last-known value — the state is not preserved wholesale. -/
theorem poll_failure_amended (jsSin : ℚ → ℚ) (prev : AppState) (key : String)
    (o : FetchOutcome)
    (hfail : o = FetchOutcome.exception ∨ o = FetchOutcome.httpError) :
    fetchCurrentTrack o = { track := none, progress_ms := 0, is_playing := false } ∧
    pollSpotifyUpdate jsSin prev none (fetchCurrentTrack o) none = (prev, none) ∧
    (pollSpotifyUpdate jsSin prev (some key) (fetchCurrentTrack o) none).1 =
      { prev with currentTrack := none, features := none, isPlaying := false } ∧
    (pollSpotifyUpdate jsSin prev (some key) (fetchCurrentTrack o) none).1.progress_ms
      = prev.progress_ms := by
  have hr : fetchCurrentTrack o =
      { track := none, progress_ms := 0, is_playing := false } := by
    rcases hfail with rfl | rfl <;> rfl
  refine ⟨hr, ?_, ?_, ?_⟩ <;> simp [pollSpotifyUpdate, hr]

/-- C7 witness: an exception outcome applied to the last-known-good
state. -/
theorem poll_failure_amended_witness :
    (FetchOutcome.exception = FetchOutcome.exception ∨
      FetchOutcome.exception = FetchOutcome.httpError) ∧
    pollSpotifyUpdate (fun q => q) pollPrevState none
      (fetchCurrentTrack FetchOutcome.exception) none = (pollPrevState, none) :=
  ⟨Or.inl rfl,
   (poll_failure_amended (fun q => q) pollPrevState "t1" FetchOutcome.exception
     (Or.inl rfl)).2.1⟩

/-- C7 counterexample: with a track active, a caught poll failure clears
the current track and features and stops playback instead of keeping the
last-known-good state. -/
theorem poll_failure_clears_counterexample :
    pollPrevState.currentTrack ≠ none ∧ pollPrevState.isPlaying = true ∧
    (pollSpotifyUpdate (fun q => q) pollPrevState (some "t1")
        (fetchCurrentTrack FetchOutcome.exception) none).1.currentTrack = none ∧
    (pollSpotifyUpdate (fun q => q) pollPrevState (some "t1")
        (fetchCurrentTrack FetchOutcome.exception) none).1.isPlaying = false := by
  refine ⟨by simp [pollPrevState], rfl, ?_, ?_⟩ <;>
    simp [pollSpotifyUpdate, fetchCurrentTrack]

/-! ## C8: platform switching -/

/-- C8 (amended): switching the platform sets the new active source and
clears `isPlaying`, leaves `progress_ms` unchanged (no reset to 0), and
issues a pause command exactly when switching from SPOTIFY to YOUTUBE with
a truthy token — never in the reverse direction. -/
theorem platform_change_amended (platform : Platform) (s : AppState)
    (token : Option String) :
    (handlePlatformChange platform s token).1.activeSource = platform ∧
    (handlePlatformChange platform s token).1.isPlaying = false ∧
    (handlePlatformChange platform s token).1.progress_ms = s.progress_ms ∧
    ((handlePlatformChange platform s token).2 = [SpotifyCmd.pauseSpotify] ↔
      platform = Platform.YOUTUBE ∧ s.activeSource = Platform.SPOTIFY ∧
        tokenTruthy token = true) := by
  refine ⟨rfl, rfl, rfl, ?_⟩
  simp only [handlePlatformChange]
  split_ifs with h
  · simp [h]
  · simp [h]

/-- C8 counterexample: switching from YOUTUBE back to SPOTIFY with a token
issues no pause command at all, and the progress clock stays at 5000 ms
instead of being reset to 0. -/
theorem platform_change_counterexample :
    (handlePlatformChange Platform.SPOTIFY ytActiveState (some "tok")).2 = [] ∧
    (handlePlatformChange Platform.SPOTIFY ytActiveState (some "tok")).1.progress_ms
      = 5000 ∧
    (5000 : ℚ) ≠ 0 := by
  refine ⟨?_, rfl, by norm_num⟩
  simp [handlePlatformChange, ytActiveState]

/-! ## C9: purity of the visual colour mapping -/

/-- C9 (amended): the frame colour is a pure function of the per-sketch
accumulator state together with the frame band inputs — two frames with
equal accumulators and equal inputs produce the same colour, with the
explicit dependence on `hueOffset` and the smoothed bands shown — and the
part_004 `getFluidColor` is pure in its three arguments.  (Equality of
mood, impulse and elapsed time alone is not sufficient; see the
counterexample.) -/
theorem visual_color_pure_given_state (a1 a2 : SceneAcc) (bass mid treble : ℚ)
    (h1 : a1.hueOffset = a2.hueOffset) (h2 : a1.smoothBass = a2.smoothBass)
    (h3 : a1.smoothMid = a2.smoothMid) (h4 : a1.smoothTreble = a2.smoothTreble)
    (e1 v1 b1 e2 v2 b2 : ℚ) (he : e1 = e2) (hv : v1 = v2) (hb : b1 = b2) :
    sceneColorHSB (sceneStep a1 bass mid treble)
      = sceneColorHSB (sceneStep a2 bass mid treble) ∧
    sceneColorHSB (sceneStep a1 bass mid treble) =
      (jsMod (a1.hueOffset + 2 / 10 + lerpQ a1.smoothBass bass (15 / 100) * 3) 360,
       50 + lerpQ a1.smoothMid mid (1 / 10) * 50,
       min (80 + lerpQ a1.smoothBass bass (15 / 100) * 20) 100) ∧
    getFluidColor e1 v1 b1 = getFluidColor e2 v2 b2 := by
  subst he hv hb
  obtain ⟨x1, x2, x3, x4⟩ := a1
  obtain ⟨y1, y2, y3, y4⟩ := a2
  simp only at h1 h2 h3 h4
  subst h1 h2 h3 h4
  exact ⟨rfl, rfl, rfl⟩

/-- C9 witness: equal accumulators and inputs at a concrete frame. -/
theorem visual_color_pure_given_state_witness :
    ({ hueOffset := 0, smoothBass := 0, smoothMid := 0,
       smoothTreble := 0 } : SceneAcc).hueOffset
      = ({ hueOffset := 0, smoothBass := 0, smoothMid := 0,
           smoothTreble := 0 } : SceneAcc).hueOffset ∧
    sceneColorHSB (sceneStep
        { hueOffset := 0, smoothBass := 0, smoothMid := 0, smoothTreble := 0 } 1 0 0)
      = sceneColorHSB (sceneStep
        { hueOffset := 0, smoothBass := 0, smoothMid := 0, smoothTreble := 0 } 1 0 0) :=
  ⟨rfl,
   (visual_color_pure_given_state
     { hueOffset := 0, smoothBass := 0, smoothMid := 0, smoothTreble := 0 }
     { hueOffset := 0, smoothBass := 0, smoothMid := 0, smoothTreble := 0 }
     1 0 0 rfl rfl rfl rfl 1 0 1 1 0 1 rfl rfl rfl).1⟩

/-- C9 counterexample: two frames receiving identical band inputs (hence
identical mood, impulse and elapsed-time data) but different accumulated
`hueOffset` values produce different colours: the colour depends on
mutable state carried across frames. -/
theorem visual_color_hidden_state_counterexample :
    sceneColorHSB (sceneStep
        { hueOffset := 0, smoothBass := 0, smoothMid := 0, smoothTreble := 0 } 0 0 0)
      ≠ sceneColorHSB (sceneStep
        { hueOffset := 100, smoothBass := 0, smoothMid := 0, smoothTreble := 0 } 0 0 0) := by
  have e1 : sceneColorHSB (sceneStep
      { hueOffset := 0, smoothBass := 0, smoothMid := 0, smoothTreble := 0 } 0 0 0)
      = (1 / 5, 50, 80) := by
    norm_num [sceneColorHSB, sceneStep, lerpQ, jsMod, truncQ]
  have e2 : sceneColorHSB (sceneStep
      { hueOffset := 100, smoothBass := 0, smoothMid := 0, smoothTreble := 0 } 0 0 0)
      = (501 / 5, 50, 80) := by
    norm_num [sceneColorHSB, sceneStep, lerpQ, jsMod, truncQ]
  rw [e1, e2]
  intro h
  exact absurd (congrArg Prod.fst h) (by norm_num)

/-! ## C10: microphone band analysis -/

theorem sum_le_of_bounded (l : List ℕ) (B : ℕ) (h : ∀ x ∈ l, x ≤ B) :
    l.sum ≤ B * l.length := by
  induction l with
  | nil => simp
  | cons a t ih =>
    simp only [List.sum_cons, List.length_cons]
    have ht := ih (fun x hx => h x (by simp [hx]))
    have ha := h a (by simp)
    have : B * (t.length + 1) = B * t.length + B := by ring
    omega

theorem loopSums_spec (bc mc : ℕ) (data : List ℕ) : ∀ i : ℕ,
    loopSums bc mc i data =
      ((data.take (bc - i)).sum,
       ((data.take (bc + mc - i)).drop (bc - i)).sum,
       (data.drop (bc + mc - i)).sum) := by
  induction data with
  | nil => intro i; simp [loopSums]
  | cons v rest ih =>
    intro i
    simp only [loopSums]
    by_cases h1 : i < bc
    · rw [if_pos h1]
      obtain ⟨k, hk⟩ : ∃ k, bc - i = k + 1 := ⟨bc - i - 1, by omega⟩
      obtain ⟨m, hm⟩ : ∃ m, bc + mc - i = m + 1 := ⟨bc + mc - i - 1, by omega⟩
      have hk2 : bc - (i + 1) = k := by omega
      have hm2 : bc + mc - (i + 1) = m := by omega
      rw [ih (i + 1), hk2, hm2, hk, hm]
      simp [List.take_succ_cons, List.drop_succ_cons, Nat.add_comm]
    · rw [if_neg h1]
      by_cases h2 : i < bc + mc
      · rw [if_pos h2]
        have hk : bc - i = 0 := by omega
        have hk2 : bc - (i + 1) = 0 := by omega
        obtain ⟨m, hm⟩ : ∃ m, bc + mc - i = m + 1 := ⟨bc + mc - i - 1, by omega⟩
        have hm2 : bc + mc - (i + 1) = m := by omega
        rw [ih (i + 1), hk2, hm2, hk, hm]
        simp [List.take_succ_cons, List.drop_succ_cons, Nat.add_comm]
      · rw [if_neg h2]
        have hk : bc - i = 0 := by omega
        have hk2 : bc - (i + 1) = 0 := by omega
        have hm : bc + mc - i = 0 := by omega
        have hm2 : bc + mc - (i + 1) = 0 := by omega
        rw [ih (i + 1), hk2, hm2, hk, hm]
        simp [Nat.add_comm]

/-- C10: `getAnalysis` is total at the interface: a stopped or
never-started analyser yields `bass = mid = treble = 0` with an empty raw
buffer; and on a 1024-bin byte buffer the three bands are exactly the
averages of the lowest 51 bins (floor of 5 percent), the next 256 bins
(floor of 25 percent) and the remaining 717 bins, each normalised by 255
and hence in `[0, 1]`. -/
theorem getAnalysis_total_bounds (data : List ℕ) (hlen : data.length = 1024)
    (hval : ∀ x ∈ data, x ≤ 255) :
    getAnalysis none = { bass := 0, mid := 0, treble := 0, raw := [] } ∧
    (getAnalysis (some data)).raw = data ∧
    (getAnalysis (some data)).bass = ((data.take 51).sum : ℚ) / 51 / 255 ∧
    (getAnalysis (some data)).mid = (((data.take 307).drop 51).sum : ℚ) / 256 / 255 ∧
    (getAnalysis (some data)).treble = ((data.drop 307).sum : ℚ) / 717 / 255 ∧
    0 ≤ (getAnalysis (some data)).bass ∧ (getAnalysis (some data)).bass ≤ 1 ∧
    0 ≤ (getAnalysis (some data)).mid ∧ (getAnalysis (some data)).mid ≤ 1 ∧
    0 ≤ (getAnalysis (some data)).treble ∧ (getAnalysis (some data)).treble ≤ 1 := by
  have hbc : data.length * 5 / 100 = 51 := by rw [hlen]
  have hmc : data.length * 25 / 100 = 256 := by rw [hlen]
  have hden : data.length - 51 - 256 = 717 := by omega
  have hsum := loopSums_spec 51 256 data 0
  simp only [Nat.sub_zero] at hsum
  have h307 : 51 + 256 = 307 := by norm_num
  rw [h307] at hsum
  have key : getAnalysis (some data) =
      { bass := ((data.take 51).sum : ℚ) / 51 / 255
        mid := (((data.take 307).drop 51).sum : ℚ) / 256 / 255
        treble := ((data.drop 307).sum : ℚ) / 717 / 255
        raw := data } := by
    simp only [getAnalysis, hbc, hmc, hden, hsum, Nat.cast_ofNat]
  have hblen : (data.take 51).length = 51 := by
    rw [List.length_take, hlen]
    decide
  have hmlen : ((data.take 307).drop 51).length = 256 := by
    rw [List.length_drop, List.length_take, hlen]
    decide
  have htlen : (data.drop 307).length = 717 := by
    rw [List.length_drop, hlen]
  have hb := sum_le_of_bounded (data.take 51) 255
    (fun x hx => hval x (List.take_subset _ _ hx))
  have hmm := sum_le_of_bounded ((data.take 307).drop 51) 255
    (fun x hx => hval x (List.take_subset _ _ (List.drop_subset _ _ hx)))
  have ht := sum_le_of_bounded (data.drop 307) 255
    (fun x hx => hval x (List.drop_subset _ _ hx))
  rw [hblen] at hb
  rw [hmlen] at hmm
  rw [htlen] at ht
  have hbQ : ((data.take 51).sum : ℚ) ≤ 13005 := by exact_mod_cast hb
  have hmQ : (((data.take 307).drop 51).sum : ℚ) ≤ 65280 := by exact_mod_cast hmm
  have htQ : ((data.drop 307).sum : ℚ) ≤ 182835 := by exact_mod_cast ht
  have hb0 : (0 : ℚ) ≤ ((data.take 51).sum : ℚ) := Nat.cast_nonneg _
  have hm0 : (0 : ℚ) ≤ (((data.take 307).drop 51).sum : ℚ) := Nat.cast_nonneg _
  have ht0 : (0 : ℚ) ≤ ((data.drop 307).sum : ℚ) := Nat.cast_nonneg _
  refine ⟨rfl, by rw [key], by rw [key], by rw [key], by rw [key], ?_, ?_, ?_, ?_, ?_, ?_⟩
  · rw [key]
    show (0 : ℚ) ≤ ((data.take 51).sum : ℚ) / 51 / 255
    exact div_nonneg (div_nonneg hb0 (by norm_num)) (by norm_num)
  · rw [key]
    show ((data.take 51).sum : ℚ) / 51 / 255 ≤ 1
    rw [div_div, div_le_one (by norm_num : (0 : ℚ) < 51 * 255)]
    linarith
  · rw [key]
    show (0 : ℚ) ≤ (((data.take 307).drop 51).sum : ℚ) / 256 / 255
    exact div_nonneg (div_nonneg hm0 (by norm_num)) (by norm_num)
  · rw [key]
    show (((data.take 307).drop 51).sum : ℚ) / 256 / 255 ≤ 1
    rw [div_div, div_le_one (by norm_num : (0 : ℚ) < 256 * 255)]
    linarith
  · rw [key]
    show (0 : ℚ) ≤ ((data.drop 307).sum : ℚ) / 717 / 255
    exact div_nonneg (div_nonneg ht0 (by norm_num)) (by norm_num)
  · rw [key]
    show ((data.drop 307).sum : ℚ) / 717 / 255 ≤ 1
    rw [div_div, div_le_one (by norm_num : (0 : ℚ) < 717 * 255)]
    linarith

/-- C10 witness: a constant 1024-bin buffer of value 100. -/
theorem getAnalysis_total_bounds_witness :
    (List.replicate 1024 100).length = 1024 ∧
    (∀ x ∈ List.replicate 1024 100, x ≤ 255) ∧
    0 ≤ (getAnalysis (some (List.replicate 1024 100))).bass ∧
    (getAnalysis (some (List.replicate 1024 100))).bass ≤ 1 := by
  have hlen : (List.replicate 1024 100).length = 1024 := List.length_replicate 1024 100
  have hval : ∀ x ∈ List.replicate 1024 100, x ≤ 255 := by
    intro x hx
    rw [List.eq_of_mem_replicate hx]
    norm_num
  have h := getAnalysis_total_bounds (List.replicate 1024 100) hlen hval
  exact ⟨hlen, hval, h.2.2.2.2.2.1, h.2.2.2.2.2.2.1⟩

end MusicMood
